import Mathlib

/-!
Verification of the PlexDownloader planning and execution engine.

Shallow embedding of `src/download_plex_photos.py`.  The script walks a remote
photo catalog (sections → albums → sub-albums → photos, each level fetched as
an XML document), plans a queue of download tasks for photos not present
locally, and then executes the queue sequentially.

Modelling decisions, used throughout:

* XML attribute lookups (`elem.get(attr)`) return `Option String`; Python's
  `x or y` on such values is `pyOr` (`None` and `""` are falsy), and f-string
  interpolation of a possibly-`None` value is `pyStr` (`None` prints as
  `"None"`).
* A fetched album/section document is modelled by its photo elements and its
  directory elements.  Plex listing documents are flat, so
  `findall('.//Photo')` / `findall('./Photo')` (and the
  `Metadata[@type="photo"]` fallback spelling) both denote the document's
  photo list, and `findall('.//Directory')` / `findall('./Directory')` its
  directory list.  `photo.find('.//Part')` is the photo's first Part element,
  an `Option PartEntry`.
* Each directory element carries, in the tree itself, the outcome of fetching
  its child listing (`requests.get` + `ET.fromstring` on its key's URL):
  either the parsed children, or a fetch error (`requests` exception), or a
  parse error (`ET.ParseError`).
* The local filesystem is an existence predicate `fs : String → Bool`
  (`os.path.exists`); side effects (`os.makedirs`, file writes, `time.sleep`)
  and log lines are recorded as an `Act` trace.
* Python raises a `TypeError` when `sanitize_filename` is applied to `None`
  (possible when `title`, `ratingKey` and `id` are all falsy while a usable
  part key exists); this uncaught exception is modelled by `Option`: a result
  of `none` is a crashed run.
* The executor's `download_delay` float is modelled as an exact rational; the
  only operation performed on it is the comparison `> 0`.
-/

/-- Characters disallowed in filenames, the character class of the regex
`[\\/*?:"<>|]` in `sanitize_filename` (line 51). -/
def badChar (c : Char) : Bool :=
  c = '\\' || c = '/' || c = '*' || c = '?' || c = ':' || c = '"' ||
    c = '<' || c = '>' || c = '|'

/-- Model of `sanitize_filename` (lines 49–51): `re.sub(r'[\\/*?:"<>|]', "_", name)`,
i.e. every character of the class is replaced by `_` and every other
character is kept. -/
def sanitize_filename (name : String) : String :=
  ⟨name.data.map (fun c => if badChar c then '_' else c)⟩

/-- Model of `build_download_url` (lines 53–55). -/
def build_download_url (base_url : String) (part_key : String) (token : String) : String :=
  base_url ++ part_key ++ "?download=1&X-Plex-Token=" ++ token

/-- Python `x or y` on attribute values: `None` and `""` are falsy. -/
def pyOr : Option String → Option String → Option String
  | some s, y => if s = "" then y else some s
  | none, y => y

/-- Python f-string interpolation of an optional string: `None` renders as
`"None"`. -/
def pyStr : Option String → String
  | some s => s
  | none => "None"

/-- Model of `os.path.join(a, b)` (posix): `b` absolute replaces `a`; otherwise the
parts are joined with a single separator. -/
def osPathJoin (a b : String) : String :=
  if b.data.head? = some '/' then b
  else if a = "" then b
  else if a.data.getLast? = some '/' then a ++ b
  else a ++ "/" ++ b

/-- The `/`-separated components of a path (`path.split(os.sep)`). -/
def splitComponents (s : String) : List String :=
  (s.data.splitOn '/').map (fun l => (⟨l⟩ : String))

/-- Python `"/".join l`, which is what `os.path.join(*parts)` computes on relative
separator-free components. -/
def joinComponents (l : List String) : String :=
  String.intercalate "/" l

/-- Length of the common prefix of two component lists
(`os.path.commonprefix`). -/
def commonLen : List String → List String → Nat
  | a :: as, b :: bs => if a = b then commonLen as bs + 1 else 0
  | _, _ => 0

/-- Model of `os.path.relpath(path, start)` for two paths that are resolved against
the same working directory (the only case arising in this program, where the
current-directory components cancel): strip the common component prefix,
prepend one `..` per remaining `start` component, and join. -/
def relpathModel (path start : String) : String :=
  let pl := (splitComponents path).filter (fun c => c ≠ "")
  let sl := (splitComponents start).filter (fun c => c ≠ "")
  let i := commonLen pl sl
  let rel := List.replicate (sl.length - i) ".." ++ pl.drop i
  if rel = [] then "." else joinComponents rel

/-- A `Part` element of a photo: its `key` and `container` attributes. -/
structure PartEntry where
  key : Option String
  container : Option String
deriving DecidableEq, Repr

/-- A photo element: `ratingKey`, `id`, `title` attributes and the first
`Part` descendant (`photo.find('.//Part')`), if any. -/
structure PhotoEntry where
  ratingKey : Option String
  id : Option String
  title : Option String
  part : Option PartEntry
deriving DecidableEq, Repr

/-- A planned download task, the dict built at lines 117–122 / 171–176. -/
structure DownloadTask where
  album_title : String
  filename : String
  local_path : String
  download_url : String
deriving DecidableEq, Repr

/-- Observable actions of the script: filesystem side effects, pacing, and
the `logging.info` lines it emits. -/
inductive Act where
  | mkdir (path : String)
  | fileWrite (path : String)
  | sleep (seconds : ℚ)
  | logErrorAlbum (title : String)
  | logErrorParse (title : String)
  | logSkipExists (relpath : String)
  | logQueued (relpath : String)
  | logSkipAlbum (title : String)
  | logErrorSections
  | logErrorSectionsParse
  | logNoPhotoSections
  | logErrorSectionItems (title : String)
  | logErrorSectionParse (title : String)
  | logDownloading (i total : Nat) (display : String)
  | logErrorDownload (display : String)
deriving DecidableEq, Repr

/-- Returns `true` exactly on the filesystem-mutating actions. -/
def Act.isFileWrite : Act → Bool
  | .fileWrite _ => true
  | _ => false

mutual
/-- A directory element of a listing: `title` and `key` attributes, plus the
outcome of fetching the album document its key points to. -/
inductive Album : Type where
  | mk (title : Option String) (key : Option String) (content : AlbumContent)

/-- Outcome of `requests.get` + `ET.fromstring` on an album URL: the parsed
children (photo elements and directory elements), or a fetch error, or an XML
parse error. -/
inductive AlbumContent : Type where
  | ok (photos : List PhotoEntry) (subs : AlbumList)
  | fetchError
  | parseError

/-- A list of directory elements (kept as a mutual inductive so that
structural recursion and induction stay elementary). -/
inductive AlbumList : Type where
  | nil
  | cons (a : Album) (rest : AlbumList)
end

def Album.titleAttr : Album → Option String
  | .mk t _ _ => t

def Album.keyAttr : Album → Option String
  | .mk _ k _ => k

def Album.content : Album → AlbumContent
  | .mk _ _ c => c

/-- The title the walker uses for a directory element:
`elem.get("title", "untitled")`. -/
def Album.walkTitle (a : Album) : String :=
  a.titleAttr.getD "untitled"

def AlbumList.toList : AlbumList → List Album
  | .nil => []
  | .cons a rest => a :: rest.toList

/-- The section listing document fetched from
`/library/sections/{key}/all`: its photo elements and directory elements. -/
structure SectionListing where
  photos : List PhotoEntry
  albums : AlbumList

/-- Outcome of fetching and parsing a remote document. -/
inductive FetchRes (α : Type) where
  | ok (val : α)
  | fetchError
  | parseError

/-- A `Directory` element of the top-level `/library/sections` listing,
together with the outcome of fetching the section's item listing. -/
structure SectionEntry where
  key : Option String
  title : Option String
  type : Option String
  items : FetchRes SectionListing

/-- The per-photo step shared verbatim by `gather_album_photos`
(lines 96–122) and `gather_section_photos` (lines 151–176): compute the
fallback identifiers, drop the photo when it has no Part or the part key is
falsy, otherwise build filename / local path / download URL; if the local
path exists, log a skip, else log and enqueue a task.  `none` models the
uncaught `TypeError` raised when `photo_title` is `None` at
`sanitize_filename`. -/
def processPhoto (fs : String → Bool) (base_url token album_title album_dir : String)
    (photo : PhotoEntry) : Option (List Act × List DownloadTask) :=
  let ratingKey := pyOr photo.ratingKey photo.id
  let photo_title := pyOr photo.title ratingKey
  match photo.part with
  | none => some ([], [])
  | some part =>
    match part.key with
    | none => some ([], [])
    | some part_key =>
      if part_key = "" then some ([], [])
      else
        match photo_title with
        | none => none
        | some t =>
          let container := (part.container).getD "jpg"
          let safe_title := sanitize_filename t
          let filename := pyStr ratingKey ++ "_" ++ safe_title ++ "." ++ container
          let local_path := osPathJoin album_dir filename
          if fs local_path then
            some ([Act.logSkipExists (relpathModel local_path album_dir)], [])
          else
            some ([Act.logQueued (relpathModel local_path album_dir)],
              [⟨album_title, filename, local_path,
                build_download_url base_url part_key token⟩])

/-- The photo loop of lines 96–122 / 151–176 over a whole listing; a crash at
any photo aborts the run. -/
def processPhotos (fs : String → Bool) (base_url token album_title album_dir : String) :
    List PhotoEntry → Option (List Act × List DownloadTask)
  | [] => some ([], [])
  | p :: rest =>
    match processPhoto fs base_url token album_title album_dir p with
    | none => none
    | some (ev₁, ts₁) =>
      match processPhotos fs base_url token album_title album_dir rest with
      | none => none
      | some (ev₂, ts₂) => some (ev₁ ++ ev₂, ts₁ ++ ts₂)

mutual
/-- Embedding of `gather_album_photos` (lines 57–134).  The function's `requests.get` +
`ET.fromstring` of `album_url` is the `AlbumContent` carried by the tree: a
fetch error logs `ERROR: cannot access album` and returns no tasks, a parse
error logs `ERROR: XML parse` and returns no tasks; otherwise the album's own
photos are processed first and the sub-album loop (lines 124–132) follows. -/
def gather_album_photos (fs : String → Bool) (base_url token album_title : String)
    (content : AlbumContent) (album_dir : String) :
    Option (List Act × List DownloadTask) :=
  match content with
  | .fetchError => some ([Act.logErrorAlbum album_title], [])
  | .parseError => some ([Act.logErrorParse album_title], [])
  | .ok photos subs =>
    match processPhotos fs base_url token album_title album_dir photos with
    | none => none
    | some (ev₁, ts₁) =>
      match gatherSubAlbums fs base_url token album_dir subs with
      | none => none
      | some (ev₂, ts₂) => some (ev₁ ++ ev₂, ts₁ ++ ts₂)

/-- The sub-album loop of `gather_album_photos` (lines 124–132): for each
`Directory` child, take its title (default `"untitled"`), make its local
directory, and recurse — with no inclusion filtering. -/
def gatherSubAlbums (fs : String → Bool) (base_url token album_dir : String) :
    AlbumList → Option (List Act × List DownloadTask)
  | .nil => some ([], [])
  | .cons (.mk title _key content) rest =>
    let sub_title := title.getD "untitled"
    let sub_dir := osPathJoin album_dir (sanitize_filename sub_title)
    match gather_album_photos fs base_url token sub_title content sub_dir with
    | none => none
    | some (ev₁, ts₁) =>
      match gatherSubAlbums fs base_url token album_dir rest with
      | none => none
      | some (ev₂, ts₂) => some (Act.mkdir sub_dir :: ev₁ ++ ev₂, ts₁ ++ ts₂)
end

/-- The top-level album loop of `gather_section_photos` (lines 178–193): for
each `Directory` of the section listing, skip it (logging only) when the
inclusion list is non-empty and does not contain its title; otherwise make
its local directory and descend with `gather_album_photos`.
`include_albums` is the module global `INCLUDE_ALBUMS` passed explicitly. -/
def gatherTopAlbums (include_albums : List String) (fs : String → Bool)
    (base_url token section_dir : String) :
    AlbumList → Option (List Act × List DownloadTask)
  | .nil => some ([], [])
  | .cons (.mk title _key content) rest =>
    let album_title := title.getD "untitled"
    if include_albums ≠ [] ∧ album_title ∉ include_albums then
      match gatherTopAlbums include_albums fs base_url token section_dir rest with
      | none => none
      | some (ev, ts) => some (Act.logSkipAlbum album_title :: ev, ts)
    else
      let album_subdir := osPathJoin section_dir (sanitize_filename album_title)
      match gather_album_photos fs base_url token album_title content album_subdir with
      | none => none
      | some (ev₁, ts₁) =>
        match gatherTopAlbums include_albums fs base_url token section_dir rest with
        | none => none
        | some (ev₂, ts₂) => some (Act.mkdir album_subdir :: ev₁ ++ ev₂, ts₁ ++ ts₂)

/-- Embedding of `gather_section_photos` (lines 136–193): the section's own photo
elements are processed first, then its top-level album directories. -/
def gather_section_photos (include_albums : List String) (fs : String → Bool)
    (base_url token section_title : String) (listing : SectionListing)
    (section_dir : String) : Option (List Act × List DownloadTask) :=
  match processPhotos fs base_url token section_title section_dir listing.photos with
  | none => none
  | some (ev₁, ts₁) =>
    match gatherTopAlbums include_albums fs base_url token section_dir listing.albums with
    | none => none
    | some (ev₂, ts₂) => some (ev₁ ++ ev₂, ts₁ ++ ts₂)

/-- The per-section loop of `main` (lines 263–285): make the section's
directory, then fetch and parse its item listing — an error logs and
`continue`s to the next section — and otherwise plan it with
`gather_section_photos`. -/
def planSections (include_albums : List String) (fs : String → Bool)
    (base_url token download_dir : String) :
    List SectionEntry → Option (List Act × List DownloadTask)
  | [] => some ([], [])
  | s :: rest =>
    let section_title := s.title.getD "untitled"
    let section_dir := osPathJoin download_dir (sanitize_filename section_title)
    let restRes := planSections include_albums fs base_url token download_dir rest
    match s.items with
    | .fetchError =>
      match restRes with
      | none => none
      | some (ev, ts) =>
        some (Act.mkdir section_dir :: Act.logErrorSectionItems section_title :: ev, ts)
    | .parseError =>
      match restRes with
      | none => none
      | some (ev, ts) =>
        some (Act.mkdir section_dir :: Act.logErrorSectionParse section_title :: ev, ts)
    | .ok listing =>
      match gather_section_photos include_albums fs base_url token section_title listing
          section_dir with
      | none => none
      | some (ev₁, ts₁) =>
        match restRes with
        | none => none
        | some (ev₂, ts₂) => some (Act.mkdir section_dir :: ev₁ ++ ev₂, ts₁ ++ ts₂)

/-- The planning phase of `main` (lines 239–285): make the download
directory; fetching or parsing the top-level `/library/sections` listing may
fail, which logs once and ends the run with nothing planned; otherwise keep
the `Directory` entries of type `"photo"` (none → log and end), and walk each
photo section in listing order. -/
def planRun (include_albums : List String) (fs : String → Bool)
    (base_url token download_dir : String)
    (sections : FetchRes (List SectionEntry)) :
    Option (List Act × List DownloadTask) :=
  match sections with
  | .fetchError => some ([Act.mkdir download_dir, Act.logErrorSections], [])
  | .parseError => some ([Act.mkdir download_dir, Act.logErrorSectionsParse], [])
  | .ok secs =>
    let photo_sections := secs.filter (fun s => s.type == some "photo")
    if photo_sections.isEmpty then
      some ([Act.mkdir download_dir, Act.logNoPhotoSections], [])
    else
      match planSections include_albums fs base_url token download_dir photo_sections with
      | none => none
      | some (ev, ts) => some (Act.mkdir download_dir :: ev, ts)

/-- The display path of lines 204–206: the path relative to the download
directory, with its first component stripped when there is more than one
(`os.path.normpath` is the identity on the already-normalised relative paths
this program produces). -/
def displayPathOf (local_path download_dir : String) : String :=
  let rel_full := relpathModel local_path download_dir
  let parts := splitComponents rel_full
  if parts.length > 1 then joinComponents parts.tail else rel_full

/-- The loop body of `download_tasks` (lines 202–219), carried out over the
remaining tasks with `i` the 1-based index of the next task: log the
progress line; on transfer success write the file and, when the delay is
positive, sleep; on failure log the error and continue.  `net` tells whether
the streamed GET of a download URL succeeds. -/
def downloadLoop (net : String → Bool) (download_delay : ℚ) (download_dir : String)
    (total : Nat) : Nat → List DownloadTask → List Act
  | _, [] => []
  | i, task :: rest =>
    let display_path := displayPathOf task.local_path download_dir
    (Act.logDownloading i total display_path ::
      (if net task.download_url then
        Act.fileWrite task.local_path ::
          (if 0 < download_delay then [Act.sleep download_delay] else [])
      else [Act.logErrorDownload display_path])) ++
      downloadLoop net download_delay download_dir total (i + 1) rest

/-- Embedding of `download_tasks` (lines 195–219): `enumerate(tasks, start=1)` over the
whole queue. -/
def download_tasks (tasks : List DownloadTask) (download_delay : ℚ)
    (download_dir : String) (net : String → Bool) : List Act :=
  downloadLoop net download_delay download_dir tasks.length 1 tasks

/-- The crash condition of the per-photo step: a usable part key is present
but `photo_title` is `None` (title, ratingKey and id all falsy), so
`sanitize_filename` receives `None` and Python raises. -/
def photoCrashes (photo : PhotoEntry) : Bool :=
  match photo.part with
  | none => false
  | some part =>
    match part.key with
    | none => false
    | some part_key =>
      if part_key = "" then false
      else (pyOr photo.title (pyOr photo.ratingKey photo.id)).isNone

/-- Log lines of a non-crashing per-photo step. -/
def photoActsOf (fs : String → Bool) (base_url token album_title album_dir : String)
    (photo : PhotoEntry) : List Act :=
  ((processPhoto fs base_url token album_title album_dir photo).getD ([], [])).1

/-- Tasks (zero or one) of a non-crashing per-photo step. -/
def photoTasksOf (fs : String → Bool) (base_url token album_title album_dir : String)
    (photo : PhotoEntry) : List DownloadTask :=
  ((processPhoto fs base_url token album_title album_dir photo).getD ([], [])).2

/-- Total description of the photo loop: concatenated per-photo logs and
tasks. -/
def photosPlan (fs : String → Bool) (base_url token album_title album_dir : String)
    (photos : List PhotoEntry) : List Act × List DownloadTask :=
  (photos.flatMap (photoActsOf fs base_url token album_title album_dir),
   photos.flatMap (photoTasksOf fs base_url token album_title album_dir))

mutual
/-- No photo reachable below this album content makes the walk crash. -/
def contentNoCrash : AlbumContent → Bool
  | .ok photos subs => photos.all (fun p => !photoCrashes p) && subsNoCrash subs
  | .fetchError => true
  | .parseError => true

/-- No photo reachable below these sub-albums makes the walk crash. -/
def subsNoCrash : AlbumList → Bool
  | .nil => true
  | .cons (.mk _ _ c) rest => contentNoCrash c && subsNoCrash rest
end

mutual
/-- Total description of a (sub-)album walk: what `gather_album_photos`
produces when no photo below it crashes the run. -/
def albumPlan (fs : String → Bool) (base_url token album_title : String)
    (content : AlbumContent) (album_dir : String) : List Act × List DownloadTask :=
  match content with
  | .fetchError => ([Act.logErrorAlbum album_title], [])
  | .parseError => ([Act.logErrorParse album_title], [])
  | .ok photos subs =>
    let pr := photosPlan fs base_url token album_title album_dir photos
    let sr := subsPlan fs base_url token album_dir subs
    (pr.1 ++ sr.1, pr.2 ++ sr.2)

/-- Total description of the sub-album loop. -/
def subsPlan (fs : String → Bool) (base_url token album_dir : String) :
    AlbumList → List Act × List DownloadTask
  | .nil => ([], [])
  | .cons (.mk title _key content) rest =>
    let sub_title := title.getD "untitled"
    let sub_dir := osPathJoin album_dir (sanitize_filename sub_title)
    let r := albumPlan fs base_url token sub_title content sub_dir
    let rr := subsPlan fs base_url token album_dir rest
    (Act.mkdir sub_dir :: r.1 ++ rr.1, r.2 ++ rr.2)
end

/-- The inclusion-filter acceptance condition: the configured list is empty,
or it contains the album's title (the negation of the skip test at
line 185). -/
def acceptedAlbum (include_albums : List String) (album_title : String) : Prop :=
  include_albums = [] ∨ album_title ∈ include_albums

instance (include_albums : List String) (album_title : String) :
    Decidable (acceptedAlbum include_albums album_title) := by
  unfold acceptedAlbum; infer_instance

/-- No accepted top-level album has a photo below it that crashes the run
(skipped albums are never walked, so their photos cannot crash it). -/
def topNoCrash (include_albums : List String) : AlbumList → Bool
  | .nil => true
  | .cons (.mk title _ c) rest =>
    (if acceptedAlbum include_albums (title.getD "untitled") then contentNoCrash c
     else true) && topNoCrash include_albums rest

/-- Total description of the top-level album loop, inclusion filter
applied. -/
def topPlan (include_albums : List String) (fs : String → Bool)
    (base_url token section_dir : String) : AlbumList → List Act × List DownloadTask
  | .nil => ([], [])
  | .cons (.mk title _key content) rest =>
    let album_title := title.getD "untitled"
    let rr := topPlan include_albums fs base_url token section_dir rest
    if acceptedAlbum include_albums album_title then
      let album_subdir := osPathJoin section_dir (sanitize_filename album_title)
      let r := albumPlan fs base_url token album_title content album_subdir
      (Act.mkdir album_subdir :: r.1 ++ rr.1, r.2 ++ rr.2)
    else
      (Act.logSkipAlbum album_title :: rr.1, rr.2)

/-- No photo walked anywhere in this section listing crashes the run. -/
def listingNoCrash (include_albums : List String) (listing : SectionListing) : Bool :=
  listing.photos.all (fun p => !photoCrashes p) &&
    topNoCrash include_albums listing.albums

/-- Total description of a section walk. -/
def sectionPlan (include_albums : List String) (fs : String → Bool)
    (base_url token section_title : String) (listing : SectionListing)
    (section_dir : String) : List Act × List DownloadTask :=
  let pr := photosPlan fs base_url token section_title section_dir listing.photos
  let ar := topPlan include_albums fs base_url token section_dir listing.albums
  (pr.1 ++ ar.1, pr.2 ++ ar.2)

/-- No photo walked in any of these sections' listings crashes the run
(sections whose item listing failed to fetch or parse are never walked). -/
def sectionsNoCrash (include_albums : List String) : List SectionEntry → Bool
  | [] => true
  | s :: rest =>
    (match s.items with
      | .ok listing => listingNoCrash include_albums listing
      | .fetchError => true
      | .parseError => true) && sectionsNoCrash include_albums rest

/-- Total description of the per-section loop of `main`. -/
def sectionsPlan (include_albums : List String) (fs : String → Bool)
    (base_url token download_dir : String) :
    List SectionEntry → List Act × List DownloadTask
  | [] => ([], [])
  | s :: rest =>
    let section_title := s.title.getD "untitled"
    let section_dir := osPathJoin download_dir (sanitize_filename section_title)
    let rr := sectionsPlan include_albums fs base_url token download_dir rest
    match s.items with
    | .fetchError =>
      (Act.mkdir section_dir :: Act.logErrorSectionItems section_title :: rr.1, rr.2)
    | .parseError =>
      (Act.mkdir section_dir :: Act.logErrorSectionParse section_title :: rr.1, rr.2)
    | .ok listing =>
      let r := sectionPlan include_albums fs base_url token section_title listing
        section_dir
      (Act.mkdir section_dir :: r.1 ++ rr.1, r.2 ++ rr.2)

mutual
/-- Written from the spec's ordering words, not from the code: the
depth-first pre-order enumeration of the photo elements below an album,
each paired with the owning album title and local directory — a node's own
photos first, then each sub-album's entire subtree in listing order. -/
def preorderPhotos (album_title album_dir : String) :
    AlbumContent → List (String × String × PhotoEntry)
  | .ok photos subs =>
    photos.map (fun p => (album_title, album_dir, p)) ++ preorderSubs album_dir subs
  | .fetchError => []
  | .parseError => []

/-- Pre-order enumeration of the photo elements below a sub-album list, in
listing order. -/
def preorderSubs (album_dir : String) :
    AlbumList → List (String × String × PhotoEntry)
  | .nil => []
  | .cons (.mk title _key content) rest =>
    preorderPhotos (title.getD "untitled")
        (osPathJoin album_dir (sanitize_filename (title.getD "untitled"))) content ++
      preorderSubs album_dir rest
end

/-- Pre-order enumeration of the photos walked below the accepted top-level
albums of a section, in listing order. -/
def preorderTop (include_albums : List String) (section_dir : String) :
    AlbumList → List (String × String × PhotoEntry)
  | .nil => []
  | .cons (.mk title _key content) rest =>
    (if acceptedAlbum include_albums (title.getD "untitled") then
      preorderPhotos (title.getD "untitled")
        (osPathJoin section_dir (sanitize_filename (title.getD "untitled"))) content
    else []) ++ preorderTop include_albums section_dir rest

/-- Pre-order enumeration of the photos a section walk visits: the section's
direct photos first, then the accepted top-level albums in listing order. -/
def preorderSection (include_albums : List String)
    (section_title section_dir : String) (listing : SectionListing) :
    List (String × String × PhotoEntry) :=
  listing.photos.map (fun p => (section_title, section_dir, p)) ++
    preorderTop include_albums section_dir listing.albums

/-- The spec's `buildLocalPath`: the containing directory joined with
`"{ratingKey}_{sanitize(title)}.{container}"`. -/
def buildLocalPath (album_dir ratingKey title container : String) : String :=
  osPathJoin album_dir (ratingKey ++ "_" ++ sanitize_filename title ++ "." ++ container)

/-- A concrete part/photo/album catalog used to witness the claim theorems:
section `Photos` with album `2022-01` (photos 100, 101 and sub-album `Trip`
holding photo 102) and album `Other` (photo 101 again). -/
def photoA : PhotoEntry := ⟨some "100", none, some "alpha", some ⟨some "/parts/100", some "jpg"⟩⟩

def photoB : PhotoEntry := ⟨some "101", none, some "beta", some ⟨some "/parts/101", some "png"⟩⟩

def photoC : PhotoEntry := ⟨some "102", none, some "gamma", some ⟨some "/parts/102", none⟩⟩

def subTrip : Album := .mk (some "Trip") (some "/k3") (.ok [photoC] .nil)

def album2022 : Album := .mk (some "2022-01") (some "/k1") (.ok [photoA, photoB] (.cons subTrip .nil))

def albumOther : Album := .mk (some "Other") (some "/k2") (.ok [photoB] .nil)

def demoListing : SectionListing := ⟨[], .cons album2022 (.cons albumOther .nil)⟩

/-- Claim C8: `sanitize_filename` replaces exactly the characters
`\ / * ? : " < > |` by `_` (character-by-character map), preserves all other
characters and the length, and its output never contains a disallowed
character; in particular `sanitize_filename "a/b:c*d" = "a_b_c_d"`. -/
theorem sanitize_filename_spec :
    sanitize_filename "a/b:c*d" = "a_b_c_d" ∧
    ∀ s : String,
      (sanitize_filename s).data = s.data.map (fun c => if badChar c then '_' else c) ∧
      (sanitize_filename s).length = s.length ∧
      (sanitize_filename s).data.all (fun c => !(badChar c)) := by
  refine ⟨by decide, fun s => ⟨rfl, ?_, ?_⟩⟩
  · show (s.data.map _).length = s.data.length
    exact s.data.length_map _
  · show (s.data.map _).all _ = true
    rw [List.all_map]
    refine List.all_eq_true.2 (fun c _ => ?_)
    by_cases h : badChar c = true
    · simp [h]; decide
    · simp only [Function.comp_apply]
      rw [if_neg (by simp [h])]
      simp [Bool.eq_false_iff.2 h]

theorem processPhoto_isSome (fs : String → Bool)
    (base_url token album_title album_dir : String) (photo : PhotoEntry)
    (h : photoCrashes photo = false) :
    processPhoto fs base_url token album_title album_dir photo =
      some (photoActsOf fs base_url token album_title album_dir photo,
            photoTasksOf fs base_url token album_title album_dir photo) := by
  have hs : (processPhoto fs base_url token album_title album_dir photo).isSome = true := by
    obtain ⟨rk, pid, ttl, prt⟩ := photo
    unfold photoCrashes at h
    unfold processPhoto
    dsimp only at h ⊢
    rcases prt with _ | ⟨pk, pc⟩
    · rfl
    · dsimp only at h ⊢
      rcases pk with _ | k
      · rfl
      · dsimp only at h ⊢
        by_cases he : k = ""
        · simp [he]
        · simp only [if_neg he] at h ⊢
          rcases ht : pyOr ttl (pyOr rk pid) with _ | t
          · rw [ht] at h
            simp at h
          · simp only [ht]
            split <;> rfl
  unfold photoActsOf photoTasksOf
  match hq : processPhoto fs base_url token album_title album_dir photo with
  | some (a, b) => simp
  | none => rw [hq] at hs; simp at hs

theorem processPhotos_eq (fs : String → Bool)
    (base_url token album_title album_dir : String) (photos : List PhotoEntry)
    (h : photos.all (fun p => !photoCrashes p) = true) :
    processPhotos fs base_url token album_title album_dir photos =
      some (photosPlan fs base_url token album_title album_dir photos) := by
  induction photos with
  | nil => rfl
  | cons p rest ih =>
    simp only [List.all_cons, Bool.and_eq_true, Bool.not_eq_true'] at h
    rw [processPhotos, processPhoto_isSome fs base_url token album_title album_dir p h.1,
      ih (by simpa using h.2)]
    rfl

mutual
theorem gather_album_eq (fs : String → Bool) (base_url token album_title : String)
    (content : AlbumContent) (album_dir : String)
    (h : contentNoCrash content = true) :
    gather_album_photos fs base_url token album_title content album_dir =
      some (albumPlan fs base_url token album_title content album_dir) := by
  match content with
  | .fetchError => rfl
  | .parseError => rfl
  | .ok photos subs =>
    rw [contentNoCrash, Bool.and_eq_true] at h
    rw [gather_album_photos,
      processPhotos_eq fs base_url token album_title album_dir photos h.1,
      gatherSubAlbums_eq fs base_url token album_dir subs h.2]
    rfl

theorem gatherSubAlbums_eq (fs : String → Bool) (base_url token album_dir : String)
    (subs : AlbumList) (h : subsNoCrash subs = true) :
    gatherSubAlbums fs base_url token album_dir subs =
      some (subsPlan fs base_url token album_dir subs) := by
  match subs with
  | .nil => rfl
  | .cons (.mk title _key content) rest =>
    rw [subsNoCrash, Bool.and_eq_true] at h
    rw [gatherSubAlbums,
      gather_album_eq fs base_url token (title.getD "untitled") content
        (osPathJoin album_dir (sanitize_filename (title.getD "untitled"))) h.1,
      gatherSubAlbums_eq fs base_url token album_dir rest h.2]
    rfl
end

theorem gatherTopAlbums_eq (include_albums : List String) (fs : String → Bool)
    (base_url token section_dir : String) (albums : AlbumList)
    (h : topNoCrash include_albums albums = true) :
    gatherTopAlbums include_albums fs base_url token section_dir albums =
      some (topPlan include_albums fs base_url token section_dir albums) := by
  match albums with
  | .nil => rfl
  | .cons (.mk title _key content) rest =>
    rw [topNoCrash, Bool.and_eq_true] at h
    have ih := gatherTopAlbums_eq include_albums fs base_url token section_dir rest h.2
    by_cases hacc : acceptedAlbum include_albums (title.getD "untitled")
    · rw [if_pos hacc] at h
      have hskip : ¬(include_albums ≠ [] ∧ title.getD "untitled" ∉ include_albums) := by
        rcases hacc with h1 | h2
        · simp [h1]
        · simp [h2]
      rw [gatherTopAlbums]
      dsimp only
      rw [if_neg hskip,
        gather_album_eq fs base_url token (title.getD "untitled") content
          (osPathJoin section_dir (sanitize_filename (title.getD "untitled"))) h.1,
        ih, topPlan]
      dsimp only
      rw [if_pos hacc]
    · have hskip : include_albums ≠ [] ∧ title.getD "untitled" ∉ include_albums := by
        rw [acceptedAlbum, not_or] at hacc
        exact hacc
      rw [gatherTopAlbums]
      dsimp only
      rw [if_pos hskip, ih, topPlan]
      dsimp only
      rw [if_neg hacc]

theorem gather_section_eq (include_albums : List String) (fs : String → Bool)
    (base_url token section_title : String) (listing : SectionListing)
    (section_dir : String) (h : listingNoCrash include_albums listing = true) :
    gather_section_photos include_albums fs base_url token section_title listing
        section_dir =
      some (sectionPlan include_albums fs base_url token section_title listing
        section_dir) := by
  rw [listingNoCrash, Bool.and_eq_true] at h
  rw [gather_section_photos,
    processPhotos_eq fs base_url token section_title section_dir listing.photos h.1,
    gatherTopAlbums_eq include_albums fs base_url token section_dir listing.albums h.2]
  rfl

theorem planSections_eq (include_albums : List String) (fs : String → Bool)
    (base_url token download_dir : String) (sections : List SectionEntry)
    (h : sectionsNoCrash include_albums sections = true) :
    planSections include_albums fs base_url token download_dir sections =
      some (sectionsPlan include_albums fs base_url token download_dir sections) := by
  induction sections with
  | nil => rfl
  | cons s rest ih =>
    rw [sectionsNoCrash, Bool.and_eq_true] at h
    obtain ⟨h1, h2⟩ := h
    rw [planSections, sectionsPlan]
    dsimp only
    rw [ih h2]
    match hit : s.items with
    | .fetchError => rfl
    | .parseError => rfl
    | .ok listing =>
      rw [hit] at h1
      dsimp only at h1 ⊢
      rw [gather_section_eq include_albums fs base_url token (s.title.getD "untitled")
        listing (osPathJoin download_dir (sanitize_filename (s.title.getD "untitled"))) h1]

/-- Counterexample for C4 as stated: the top-level catalog failure is not the
only run-aborting condition.  In this concrete run the `/library/sections`
listing is retrieved and parsed fine and no node suffers a fetch or parse
failure, yet the run aborts (result `none`): its one photo has a usable part
key but `title`, `ratingKey` and `id` all absent, so `sanitize_filename`
receives `None` and the uncaught `TypeError` ends the whole run. -/
theorem run_abort_typeerror_cex :
    planRun [] (fun _ => false) "hb" "tok" "dl"
        (.ok [⟨some "/1", some "S", some "photo",
          .ok ⟨[⟨none, none, none, some ⟨some "/p", none⟩⟩], .nil⟩⟩]) = none := by
  decide

/-- Claim C4, amended: a fetch or parse failure at a single node is caught
locally: an album whose metadata cannot be fetched or parsed contributes
zero tasks and only an error log; a failing sub-album leaves the walk of its
siblings (and hence of its ancestors, which just concatenate the results)
unchanged; a section whose item listing cannot be fetched, or cannot be
parsed, logs and continues to the next section; a top-level catalog fetch or
parse failure ends the run with a single error log and no tasks whatever the
rest of the catalog holds; and fetch/parse failures alone never abort: for
every catalog free of the degenerate photos that raise the uncaught
`TypeError` (a usable part key with `title`, `ratingKey` and `id` all
falsy), the run completes wherever its fetch and parse errors sit — so the
run-aborting conditions are exactly the top-level catalog failure and that
`TypeError`. -/
theorem node_failure_isolated_amended :
    (∀ (fs : String → Bool) (base_url token album_title album_dir : String),
      gather_album_photos fs base_url token album_title .fetchError album_dir =
        some ([Act.logErrorAlbum album_title], []) ∧
      gather_album_photos fs base_url token album_title .parseError album_dir =
        some ([Act.logErrorParse album_title], [])) ∧
    (∀ (fs : String → Bool) (base_url token album_dir : String)
        (title key : Option String) (rest : AlbumList),
      gatherSubAlbums fs base_url token album_dir
          (.cons (.mk title key .fetchError) rest) =
        (gatherSubAlbums fs base_url token album_dir rest).map (fun r =>
          (Act.mkdir (osPathJoin album_dir (sanitize_filename (title.getD "untitled"))) ::
            Act.logErrorAlbum (title.getD "untitled") :: r.1, r.2)) ∧
      gatherSubAlbums fs base_url token album_dir
          (.cons (.mk title key .parseError) rest) =
        (gatherSubAlbums fs base_url token album_dir rest).map (fun r =>
          (Act.mkdir (osPathJoin album_dir (sanitize_filename (title.getD "untitled"))) ::
            Act.logErrorParse (title.getD "untitled") :: r.1, r.2))) ∧
    (∀ (include_albums : List String) (fs : String → Bool)
        (base_url token download_dir : String) (key title typ : Option String)
        (rest : List SectionEntry),
      planSections include_albums fs base_url token download_dir
          (⟨key, title, typ, .fetchError⟩ :: rest) =
        (planSections include_albums fs base_url token download_dir rest).map (fun r =>
          (Act.mkdir (osPathJoin download_dir (sanitize_filename (title.getD "untitled"))) ::
            Act.logErrorSectionItems (title.getD "untitled") :: r.1, r.2))) ∧
    (∀ (include_albums : List String) (fs : String → Bool)
        (base_url token download_dir : String) (key title typ : Option String)
        (rest : List SectionEntry),
      planSections include_albums fs base_url token download_dir
          (⟨key, title, typ, .parseError⟩ :: rest) =
        (planSections include_albums fs base_url token download_dir rest).map (fun r =>
          (Act.mkdir (osPathJoin download_dir (sanitize_filename (title.getD "untitled"))) ::
            Act.logErrorSectionParse (title.getD "untitled") :: r.1, r.2))) ∧
    (∀ (include_albums : List String) (fs : String → Bool)
        (base_url token download_dir : String),
      planRun include_albums fs base_url token download_dir .fetchError =
        some ([Act.mkdir download_dir, Act.logErrorSections], []) ∧
      planRun include_albums fs base_url token download_dir .parseError =
        some ([Act.mkdir download_dir, Act.logErrorSectionsParse], [])) ∧
    (∀ (include_albums : List String) (fs : String → Bool)
        (base_url token download_dir : String) (secs : List SectionEntry),
      sectionsNoCrash include_albums
          (secs.filter (fun s => s.type == some "photo")) = true →
      ∃ r, planRun include_albums fs base_url token download_dir (.ok secs) =
        some r) := by
  refine ⟨fun fs b tok t d => ⟨rfl, rfl⟩, ?_, ?_, ?_,
    fun inc fs b tok dd => ⟨rfl, rfl⟩, ?_⟩
  · intro fs b tok d title key rest
    constructor
    · cases hr : gatherSubAlbums fs b tok d rest with
      | none => simp [gatherSubAlbums, gather_album_photos, hr]
      | some r => simp [gatherSubAlbums, gather_album_photos, hr]
    · cases hr : gatherSubAlbums fs b tok d rest with
      | none => simp [gatherSubAlbums, gather_album_photos, hr]
      | some r => simp [gatherSubAlbums, gather_album_photos, hr]
  · intro inc fs b tok dd key title typ rest
    cases hr : planSections inc fs b tok dd rest with
    | none => simp [planSections, hr]
    | some r => simp [planSections, hr]
  · intro inc fs b tok dd key title typ rest
    cases hr : planSections inc fs b tok dd rest with
    | none => simp [planSections, hr]
    | some r => simp [planSections, hr]
  · intro inc fs b tok dd secs h
    rw [planRun]
    try dsimp only
    by_cases hemp : (secs.filter (fun s => s.type == some "photo")).isEmpty
    · rw [if_pos hemp]
      exact ⟨_, rfl⟩
    · rw [if_neg hemp, planSections_eq inc fs b tok dd
        (secs.filter (fun s => s.type == some "photo")) h]
      exact ⟨_, rfl⟩

/-- Witness for the amended C4: a one-section catalog whose item listing
fails to fetch still yields a completed run. -/
theorem node_failure_isolated_amended_witness :
    sectionsNoCrash []
        (([⟨some "/1", some "S", some "photo", .fetchError⟩] :
          List SectionEntry).filter (fun s => s.type == some "photo")) = true ∧
    (∃ r, planRun [] (fun _ => false) "hb" "tok" "dl"
        (.ok [⟨some "/1", some "S", some "photo", .fetchError⟩]) = some r) :=
  ⟨by decide,
    node_failure_isolated_amended.2.2.2.2.2 [] (fun _ => false) "hb" "tok" "dl"
      [⟨some "/1", some "S", some "photo", .fetchError⟩] (by decide)⟩

theorem downloadLoop_eq (net : String → Bool) (download_delay : ℚ)
    (download_dir : String) (total : Nat) :
    ∀ (i : Nat) (ts : List DownloadTask),
      downloadLoop net download_delay download_dir total i ts =
        (List.enumFrom i ts).flatMap (fun it =>
          Act.logDownloading it.1 total (displayPathOf it.2.local_path download_dir) ::
            (if net it.2.download_url then
              Act.fileWrite it.2.local_path ::
                (if 0 < download_delay then [Act.sleep download_delay] else [])
            else [Act.logErrorDownload (displayPathOf it.2.local_path download_dir)]))
  | _, [] => rfl
  | i, t :: rest => by
    rw [downloadLoop, List.enumFrom_cons, List.flatMap_cons,
      downloadLoop_eq net download_delay download_dir total (i + 1) rest]

/-- Claim C7: The executor's trace is exactly the concatenation, over the task
queue enumerated in order starting at 1, of one per-task trace: the progress
log, then on transfer success a file write followed by a pacing sleep exactly
when the delay is positive, and on transfer failure an error log carrying the
display path (the path relative to the download directory with its leading
section component stripped) — so every task is processed, in queue order, and
no failure aborts the batch. -/
theorem executor_trace (tasks : List DownloadTask) (download_delay : ℚ)
    (download_dir : String) (net : String → Bool) :
    download_tasks tasks download_delay download_dir net =
      (List.enumFrom 1 tasks).flatMap (fun it =>
        Act.logDownloading it.1 tasks.length
            (displayPathOf it.2.local_path download_dir) ::
          (if net it.2.download_url then
            Act.fileWrite it.2.local_path ::
              (if 0 < download_delay then [Act.sleep download_delay] else [])
          else [Act.logErrorDownload (displayPathOf it.2.local_path download_dir)])) :=
  downloadLoop_eq net download_delay download_dir tasks.length 1 tasks


mutual
theorem albumPlan_tasks_preorder (fs : String → Bool) (base_url token album_title : String)
    (content : AlbumContent) (album_dir : String) :
    (albumPlan fs base_url token album_title content album_dir).2 =
      (preorderPhotos album_title album_dir content).flatMap
        (fun x => photoTasksOf fs base_url token x.1 x.2.1 x.2.2) := by
  match content with
  | .fetchError => rfl
  | .parseError => rfl
  | .ok photos subs =>
    rw [albumPlan, preorderPhotos]
    dsimp only
    rw [List.flatMap_append, List.flatMap_map,
      subsPlan_tasks_preorder fs base_url token album_dir subs]
    rfl

theorem subsPlan_tasks_preorder (fs : String → Bool) (base_url token album_dir : String)
    (subs : AlbumList) :
    (subsPlan fs base_url token album_dir subs).2 =
      (preorderSubs album_dir subs).flatMap
        (fun x => photoTasksOf fs base_url token x.1 x.2.1 x.2.2) := by
  match subs with
  | .nil => rfl
  | .cons (.mk title _key content) rest =>
    rw [subsPlan, preorderSubs]
    dsimp only
    rw [List.flatMap_append,
      albumPlan_tasks_preorder fs base_url token (title.getD "untitled") content
        (osPathJoin album_dir (sanitize_filename (title.getD "untitled"))),
      subsPlan_tasks_preorder fs base_url token album_dir rest]
end

theorem topPlan_tasks_preorder (include_albums : List String) (fs : String → Bool)
    (base_url token section_dir : String) (albums : AlbumList) :
    (topPlan include_albums fs base_url token section_dir albums).2 =
      (preorderTop include_albums section_dir albums).flatMap
        (fun x => photoTasksOf fs base_url token x.1 x.2.1 x.2.2) := by
  match albums with
  | .nil => rfl
  | .cons (.mk title _key content) rest =>
    have ih := topPlan_tasks_preorder include_albums fs base_url token section_dir rest
    rw [topPlan, preorderTop]
    dsimp only
    by_cases hacc : acceptedAlbum include_albums (title.getD "untitled")
    · rw [if_pos hacc, if_pos hacc, List.flatMap_append,
        albumPlan_tasks_preorder fs base_url token (title.getD "untitled") content
          (osPathJoin section_dir (sanitize_filename (title.getD "untitled"))), ih]
    · rw [if_neg hacc, if_neg hacc, ih]
      simp

theorem sectionPlan_tasks_preorder (include_albums : List String) (fs : String → Bool)
    (base_url token section_title : String) (listing : SectionListing)
    (section_dir : String) :
    (sectionPlan include_albums fs base_url token section_title listing section_dir).2 =
      (preorderSection include_albums section_title section_dir listing).flatMap
        (fun x => photoTasksOf fs base_url token x.1 x.2.1 x.2.2) := by
  rw [sectionPlan, preorderSection]
  dsimp only
  rw [List.flatMap_append, List.flatMap_map,
    topPlan_tasks_preorder include_albums fs base_url token section_dir listing.albums]
  rfl

/-- Claim C2: For every catalog tree whose walk completes, the planned queue is
exactly the per-photo results concatenated along the depth-first pre-order
enumeration of the catalog: a node's own photos are enqueued before recursion
into its sub-albums, each sub-album's entire subtree precedes the next
sibling, and siblings keep listing order (`preorderPhotos` / `preorderSubs` /
`preorderSection` are written from the spec's ordering words and compared
against the walker). -/
theorem tasks_depth_first_preorder (include_albums : List String) (fs : String → Bool)
    (base_url token section_title : String) (listing : SectionListing)
    (section_dir : String) (h : listingNoCrash include_albums listing = true) :
    gather_section_photos include_albums fs base_url token section_title listing
        section_dir =
      some ((sectionPlan include_albums fs base_url token section_title listing
          section_dir).1,
        (preorderSection include_albums section_title section_dir listing).flatMap
          (fun x => photoTasksOf fs base_url token x.1 x.2.1 x.2.2)) := by
  rw [gather_section_eq include_albums fs base_url token section_title listing
    section_dir h]
  rw [← sectionPlan_tasks_preorder]

theorem topPlan_tasks_filter (include_albums : List String) (fs : String → Bool)
    (base_url token section_dir : String) (albums : AlbumList) :
    (topPlan include_albums fs base_url token section_dir albums).2 =
      albums.toList.flatMap (fun a =>
        if acceptedAlbum include_albums a.walkTitle then
          (albumPlan fs base_url token a.walkTitle a.content
            (osPathJoin section_dir (sanitize_filename a.walkTitle))).2
        else []) := by
  match albums with
  | .nil => rfl
  | .cons (.mk title _key content) rest =>
    have ih := topPlan_tasks_filter include_albums fs base_url token section_dir rest
    rw [topPlan, AlbumList.toList, List.flatMap_cons]
    by_cases hacc : acceptedAlbum include_albums (title.getD "untitled")
    · simp only [Album.walkTitle, Album.titleAttr, Album.content, if_pos hacc, ih]
    · simp only [Album.walkTitle, Album.titleAttr, Album.content, if_neg hacc, ih,
        List.nil_append]

/-- Claim C1: The inclusion filter acts exactly once, at the top-level album
boundary: for a completed section walk the planned queue is exactly the
section's direct-photo results followed, for each top-level album in listing
order, by the album's entire unfiltered subtree result when the album is
accepted (inclusion list empty, or its title a member) and by nothing
otherwise — `albumPlan` takes no inclusion list, so descendants are never
re-filtered.  Moreover a skipped top-level album contributes exactly one
skip log, no tasks and no directory, and the walk's outcome is independent
of the skipped album's entire content (no recursion into it). -/
theorem include_filter_top_level_only (include_albums : List String) (fs : String → Bool)
    (base_url token section_title : String) (listing : SectionListing)
    (section_dir : String) (h : listingNoCrash include_albums listing = true) :
    (gather_section_photos include_albums fs base_url token section_title listing
        section_dir =
      some ((sectionPlan include_albums fs base_url token section_title listing
          section_dir).1,
        listing.photos.flatMap
            (photoTasksOf fs base_url token section_title section_dir) ++
          listing.albums.toList.flatMap (fun a =>
            if acceptedAlbum include_albums a.walkTitle then
              (albumPlan fs base_url token a.walkTitle a.content
                (osPathJoin section_dir (sanitize_filename a.walkTitle))).2
            else []))) ∧
    (∀ (title key : Option String) (content content' : AlbumContent) (rest : AlbumList),
      ¬ acceptedAlbum include_albums (title.getD "untitled") →
      gatherTopAlbums include_albums fs base_url token section_dir
          (.cons (.mk title key content) rest) =
        (gatherTopAlbums include_albums fs base_url token section_dir rest).map
          (fun r => (Act.logSkipAlbum (title.getD "untitled") :: r.1, r.2)) ∧
      gatherTopAlbums include_albums fs base_url token section_dir
          (.cons (.mk title key content) rest) =
        gatherTopAlbums include_albums fs base_url token section_dir
          (.cons (.mk title key content') rest)) := by
  constructor
  · have ht : (sectionPlan include_albums fs base_url token section_title listing
        section_dir).2 =
        listing.photos.flatMap
            (photoTasksOf fs base_url token section_title section_dir) ++
          listing.albums.toList.flatMap (fun a =>
            if acceptedAlbum include_albums a.walkTitle then
              (albumPlan fs base_url token a.walkTitle a.content
                (osPathJoin section_dir (sanitize_filename a.walkTitle))).2
            else []) := by
      rw [sectionPlan]
      dsimp only
      rw [topPlan_tasks_filter]
      rfl
    rw [gather_section_eq include_albums fs base_url token section_title listing
      section_dir h, ← ht]
  · intro title key content content' rest hacc
    have hskip : include_albums ≠ [] ∧ title.getD "untitled" ∉ include_albums := by
      rw [acceptedAlbum, not_or] at hacc
      exact hacc
    constructor
    · cases hr : gatherTopAlbums include_albums fs base_url token section_dir rest with
      | none => simp [gatherTopAlbums, hskip, hr]
      | some r => simp [gatherTopAlbums, hskip, hr]
    · cases hr : gatherTopAlbums include_albums fs base_url token section_dir rest with
      | none => simp [gatherTopAlbums, hskip, hr]
      | some r => simp [gatherTopAlbums, hskip, hr]


/-- Witness for C1 at the concrete catalog `demoListing` with inclusion set
`{2022-01}`. -/
theorem include_filter_top_level_only_witness :
    listingNoCrash ["2022-01"] demoListing = true ∧
    gather_section_photos ["2022-01"] (fun _ => false) "hb" "tok" "Photos" demoListing
        "plex/Photos" =
      some ((sectionPlan ["2022-01"] (fun _ => false) "hb" "tok" "Photos" demoListing
          "plex/Photos").1,
        demoListing.photos.flatMap
            (photoTasksOf (fun _ => false) "hb" "tok" "Photos" "plex/Photos") ++
          demoListing.albums.toList.flatMap (fun a =>
            if acceptedAlbum ["2022-01"] a.walkTitle then
              (albumPlan (fun _ => false) "hb" "tok" a.walkTitle a.content
                (osPathJoin "plex/Photos" (sanitize_filename a.walkTitle))).2
            else [])) :=
  ⟨by decide,
    (include_filter_top_level_only ["2022-01"] (fun _ => false) "hb" "tok" "Photos"
      demoListing "plex/Photos" (by decide)).1⟩

/-- Witness for C2 at the concrete catalog `demoListing` with an empty
inclusion set. -/
theorem tasks_depth_first_preorder_witness :
    listingNoCrash [] demoListing = true ∧
    gather_section_photos [] (fun _ => false) "hb" "tok" "Photos" demoListing
        "plex/Photos" =
      some ((sectionPlan [] (fun _ => false) "hb" "tok" "Photos" demoListing
          "plex/Photos").1,
        (preorderSection [] "Photos" "plex/Photos" demoListing).flatMap
          (fun x => photoTasksOf (fun _ => false) "hb" "tok" x.1 x.2.1 x.2.2)) :=
  ⟨by decide,
    tasks_depth_first_preorder [] (fun _ => false) "hb" "tok" "Photos" demoListing
      "plex/Photos" (by decide)⟩

theorem photoTasksOf_mem (fs : String → Bool)
    (base_url token album_title album_dir : String) (photo : PhotoEntry)
    (t : DownloadTask)
    (htm : t ∈ photoTasksOf fs base_url token album_title album_dir photo) :
    ∃ (pt : PartEntry) (k t0 : String),
      photo.part = some pt ∧ pt.key = some k ∧ k ≠ "" ∧
      pyOr photo.title (pyOr photo.ratingKey photo.id) = some t0 ∧
      t = ⟨album_title,
            pyStr (pyOr photo.ratingKey photo.id) ++ "_" ++ sanitize_filename t0 ++
              "." ++ pt.container.getD "jpg",
            osPathJoin album_dir
              (pyStr (pyOr photo.ratingKey photo.id) ++ "_" ++ sanitize_filename t0 ++
                "." ++ pt.container.getD "jpg"),
            build_download_url base_url k token⟩ ∧
      fs t.local_path = false := by
  obtain ⟨rk, pid, ttl, prt⟩ := photo
  unfold photoTasksOf processPhoto at htm
  dsimp only at htm
  rcases prt with _ | ⟨pk, pc⟩
  · simp at htm
  · dsimp only at htm
    rcases pk with _ | k
    · simp at htm
    · dsimp only at htm
      by_cases he : k = ""
      · simp [he] at htm
      · rw [if_neg he] at htm
        rcases hq : pyOr ttl (pyOr rk pid) with _ | t0
        · rw [hq] at htm
          simp at htm
        · rw [hq] at htm
          dsimp only at htm
          by_cases hfs : fs (osPathJoin album_dir (pyStr (pyOr rk pid) ++ "_" ++
              sanitize_filename t0 ++ "." ++ pc.getD "jpg")) = true
          · rw [if_pos hfs] at htm
            simp at htm
          · rw [if_neg hfs] at htm
            simp only [Option.getD_some, List.mem_singleton] at htm
            refine ⟨⟨some k, pc⟩, k, t0, rfl, rfl, he, rfl, htm, ?_⟩
            rw [htm]
            simpa using hfs

theorem photoTasksOf_covered (fs fs' : String → Bool)
    (base_url token album_title album_dir : String) (photo : PhotoEntry)
    (mono : ∀ q, fs q = true → fs' q = true)
    (hcov : ∀ t ∈ photoTasksOf fs base_url token album_title album_dir photo,
      fs' t.local_path = true) :
    photoTasksOf fs' base_url token album_title album_dir photo = [] := by
  obtain ⟨rk, pid, ttl, prt⟩ := photo
  unfold photoTasksOf processPhoto at hcov ⊢
  dsimp only at hcov ⊢
  rcases prt with _ | ⟨pk, pc⟩
  · rfl
  · dsimp only at hcov ⊢
    rcases pk with _ | k
    · rfl
    · dsimp only at hcov ⊢
      by_cases he : k = ""
      · simp [he]
      · rw [if_neg he] at hcov ⊢
        rcases hq : pyOr ttl (pyOr rk pid) with _ | t0
        · rfl
        · rw [hq] at hcov
          dsimp only at hcov ⊢
          by_cases hfs' : fs' (osPathJoin album_dir (pyStr (pyOr rk pid) ++ "_" ++
              sanitize_filename t0 ++ "." ++ pc.getD "jpg")) = true
          · rw [if_pos hfs']
            rfl
          · exfalso
            have hfs : fs (osPathJoin album_dir (pyStr (pyOr rk pid) ++ "_" ++
                sanitize_filename t0 ++ "." ++ pc.getD "jpg")) = false := by
              cases hffs : fs (osPathJoin album_dir (pyStr (pyOr rk pid) ++ "_" ++
                  sanitize_filename t0 ++ "." ++ pc.getD "jpg"))
              · rfl
              · exact absurd (mono _ hffs) hfs'
            rw [if_neg (by simp [hfs])] at hcov
            simp only [Option.getD_some] at hcov
            exact hfs' (by simpa using hcov _ (List.mem_singleton_self _))

/-- Claim C3: Planning is idempotent with respect to the local filesystem: a
photo whose computed local path exists produces exactly one skip log and no
task (existence judged purely by the path predicate); no enqueued task's
local path existed; and for any catalog snapshot, when the filesystem grows
from `fs` to any `fs'` that contains every path planned under `fs` (as after
a successful run), re-walking under `fs'` yields an empty task queue. -/
theorem planning_idempotent :
    (∀ (fs : String → Bool) (base_url token album_title album_dir : String)
        (photo : PhotoEntry) (pt : PartEntry) (k t0 : String),
      photo.part = some pt → pt.key = some k → k ≠ "" →
      pyOr photo.title (pyOr photo.ratingKey photo.id) = some t0 →
      fs (osPathJoin album_dir (pyStr (pyOr photo.ratingKey photo.id) ++ "_" ++
          sanitize_filename t0 ++ "." ++ pt.container.getD "jpg")) = true →
      processPhoto fs base_url token album_title album_dir photo =
        some ([Act.logSkipExists (relpathModel
            (osPathJoin album_dir (pyStr (pyOr photo.ratingKey photo.id) ++ "_" ++
              sanitize_filename t0 ++ "." ++ pt.container.getD "jpg")) album_dir)],
          [])) ∧
    (∀ (fs : String → Bool) (base_url token album_title album_dir : String)
        (photo : PhotoEntry) (t : DownloadTask),
      t ∈ photoTasksOf fs base_url token album_title album_dir photo →
      fs t.local_path = false) ∧
    (∀ (include_albums : List String) (fs fs' : String → Bool)
        (base_url token section_title : String) (listing : SectionListing)
        (section_dir : String),
      listingNoCrash include_albums listing = true →
      (∀ q, fs q = true → fs' q = true) →
      (∀ t ∈ (sectionPlan include_albums fs base_url token section_title listing
          section_dir).2, fs' t.local_path = true) →
      gather_section_photos include_albums fs' base_url token section_title listing
          section_dir =
        some ((sectionPlan include_albums fs' base_url token section_title listing
          section_dir).1, [])) := by
  refine ⟨?_, ?_, ?_⟩
  · intro fs base_url token album_title album_dir photo pt k t0 hpt hk he hq hfs
    obtain ⟨rk, pid, ttl, prt⟩ := photo
    dsimp only at hpt hq hfs
    subst hpt
    unfold processPhoto
    dsimp only
    rw [hk]
    dsimp only
    rw [if_neg he, hq]
    dsimp only
    rw [if_pos hfs]
  · intro fs base_url token album_title album_dir photo t htm
    obtain ⟨pt, k, t0, _, _, _, _, _, hfs⟩ :=
      photoTasksOf_mem fs base_url token album_title album_dir photo t htm
    exact hfs
  · intro include_albums fs fs' base_url token section_title listing section_dir
      hnc mono hcov
    have h2 : (sectionPlan include_albums fs' base_url token section_title listing
        section_dir).2 = [] := by
      rw [sectionPlan_tasks_preorder]
      rw [sectionPlan_tasks_preorder] at hcov
      refine List.flatMap_eq_nil_iff.2 (fun x hx => ?_)
      refine photoTasksOf_covered fs fs' base_url token x.1 x.2.1 x.2.2 mono
        (fun t htm => ?_)
      exact hcov t (List.mem_flatMap.2 ⟨x, hx, htm⟩)
    rw [gather_section_eq include_albums fs' base_url token section_title listing
      section_dir hnc, ← h2]

/-- Witness for C3: on `demoListing`, planning against a filesystem where
every path exists yields an empty queue. -/
theorem planning_idempotent_witness :
    listingNoCrash [] demoListing = true ∧
    gather_section_photos [] (fun _ => true) "hb" "tok" "Photos" demoListing
        "plex/Photos" =
      some ((sectionPlan [] (fun _ => true) "hb" "tok" "Photos" demoListing
        "plex/Photos").1, []) :=
  ⟨by decide,
    planning_idempotent.2.2 [] (fun _ => false) (fun _ => true) "hb" "tok" "Photos"
      demoListing "plex/Photos" (by decide) (fun _ _ => rfl) (fun _ _ => rfl)⟩


/-- Claim C6: the planned queue of a completed section walk is exactly the
per-photo contributions along the walk's pre-order enumeration — each task
arising from its actual owning album title, containing directory and photo
element — and each such contribution is exactly the record whose filename is
`"{ratingKey}_{sanitize(title)}.{container}"` (container defaulting to
`"jpg"`), whose local path is `buildLocalPath` of that containing directory
and that photo's rendered `ratingKey`-or-`id`, fallback title and container,
and whose URL is `build_download_url` of that part key; all walk functions
are pure, so two walks over an unchanged catalog produce identical paths. -/
theorem local_path_formula (include_albums : List String) (fs : String → Bool)
    (base_url token section_title : String) (listing : SectionListing)
    (section_dir : String) (ev : List Act) (ts : List DownloadTask)
    (h : listingNoCrash include_albums listing = true)
    (hq : gather_section_photos include_albums fs base_url token section_title listing
        section_dir = some (ev, ts)) :
    ts = (preorderSection include_albums section_title section_dir listing).flatMap
        (fun x => photoTasksOf fs base_url token x.1 x.2.1 x.2.2) ∧
    (∀ (album_title album_dir : String) (photo : PhotoEntry) (t : DownloadTask),
      t ∈ photoTasksOf fs base_url token album_title album_dir photo →
      ∃ (pt : PartEntry) (k t0 : String),
        photo.part = some pt ∧ pt.key = some k ∧ k ≠ "" ∧
        pyOr photo.title (pyOr photo.ratingKey photo.id) = some t0 ∧
        t = ⟨album_title,
              pyStr (pyOr photo.ratingKey photo.id) ++ "_" ++ sanitize_filename t0 ++
                "." ++ pt.container.getD "jpg",
              buildLocalPath album_dir (pyStr (pyOr photo.ratingKey photo.id)) t0
                (pt.container.getD "jpg"),
              build_download_url base_url k token⟩) := by
  have hplan := gather_section_eq include_albums fs base_url token section_title
    listing section_dir h
  rw [hq] at hplan
  have h2 : (ev, ts) =
      sectionPlan include_albums fs base_url token section_title listing section_dir :=
    Option.some.inj hplan
  constructor
  · have hts : ts = (sectionPlan include_albums fs base_url token section_title
        listing section_dir).2 := by
      rw [← h2]
    rw [hts, sectionPlan_tasks_preorder]
  · intro album_title album_dir photo t htm
    obtain ⟨pt, k, t0, hpart, hkey, hne, htitle, ht, _⟩ :=
      photoTasksOf_mem fs base_url token album_title album_dir photo t htm
    exact ⟨pt, k, t0, hpart, hkey, hne, htitle, ht⟩

/-- Witness for C6: the demo walk's queue along its pre-order enumeration,
and photo 100's task under its actual containing directory
`plex/Photos/2022-01`. -/
theorem local_path_formula_witness :
    listingNoCrash [] demoListing = true ∧
    (sectionPlan [] (fun _ => false) "hb" "tok" "Photos" demoListing "plex/Photos").2 =
      (preorderSection [] "Photos" "plex/Photos" demoListing).flatMap
        (fun x => photoTasksOf (fun _ => false) "hb" "tok" x.1 x.2.1 x.2.2) ∧
    (∃ (pt : PartEntry) (k t0 : String),
      photoA.part = some pt ∧ pt.key = some k ∧ k ≠ "" ∧
      pyOr photoA.title (pyOr photoA.ratingKey photoA.id) = some t0 ∧
      (⟨"2022-01", "100_alpha.jpg", "plex/Photos/2022-01/100_alpha.jpg",
          "hb/parts/100?download=1&X-Plex-Token=tok"⟩ : DownloadTask) =
        ⟨"2022-01",
          pyStr (pyOr photoA.ratingKey photoA.id) ++ "_" ++ sanitize_filename t0 ++
            "." ++ pt.container.getD "jpg",
          buildLocalPath "plex/Photos/2022-01"
            (pyStr (pyOr photoA.ratingKey photoA.id)) t0 (pt.container.getD "jpg"),
          build_download_url "hb" k "tok"⟩) :=
  ⟨by decide,
    (local_path_formula [] (fun _ => false) "hb" "tok" "Photos" demoListing
      "plex/Photos"
      (sectionPlan [] (fun _ => false) "hb" "tok" "Photos" demoListing "plex/Photos").1
      (sectionPlan [] (fun _ => false) "hb" "tok" "Photos" demoListing "plex/Photos").2
      (by decide) rfl).1,
    (local_path_formula [] (fun _ => false) "hb" "tok" "Photos" demoListing
      "plex/Photos"
      (sectionPlan [] (fun _ => false) "hb" "tok" "Photos" demoListing "plex/Photos").1
      (sectionPlan [] (fun _ => false) "hb" "tok" "Photos" demoListing "plex/Photos").2
      (by decide) rfl).2 "2022-01" "plex/Photos/2022-01" photoA
      ⟨"2022-01", "100_alpha.jpg", "plex/Photos/2022-01/100_alpha.jpg",
        "hb/parts/100?download=1&X-Plex-Token=tok"⟩ (by decide)⟩

/-- Counterexample for C5 as stated: the walk of a photo element lacking its
`Part` reference emits no observation at all — the log-event trace is empty
(`some ([], [])`) — so no warning is logged when the photo is dropped (the
code's `continue` at lines 100–104 / 155–159 has no logging call). -/
theorem missing_part_no_warning_cex :
    processPhotos (fun _ => false) "hb" "tok" "Photos" "plex/Photos"
        [⟨some "7", none, some "seven", none⟩] = some ([], []) ∧
    gather_album_photos (fun _ => false) "hb" "tok" "A"
        (.ok [⟨some "7", none, some "seven", none⟩] .nil) "plex/Photos/A" =
      some ([], []) := by
  exact ⟨by decide, by decide⟩

/-- Claim C5, amended: A photo element whose part reference is missing, or
whose part key is absent or empty, contributes zero tasks, never raises —
and is dropped silently: no observation of any kind is emitted. -/
theorem missing_part_silent (fs : String → Bool)
    (base_url token album_title album_dir : String) (photo : PhotoEntry)
    (h : photo.part = none ∨
      ∃ pt : PartEntry, photo.part = some pt ∧ (pt.key = none ∨ pt.key = some "")) :
    processPhoto fs base_url token album_title album_dir photo = some ([], []) := by
  obtain ⟨rk, pid, ttl, prt⟩ := photo
  dsimp only at h
  unfold processPhoto
  dsimp only
  rcases prt with _ | ⟨pk, pc⟩
  · rfl
  · rcases h with h | ⟨pt, hpt, hk⟩
    · exact absurd h (by simp)
    · have hpt' : pt = ⟨pk, pc⟩ := (Option.some.inj hpt).symm
      subst hpt'
      dsimp only at hk
      rcases hk with hk | hk <;> subst hk <;> rfl

/-- Witness for the amended C5: a photo whose part has no key. -/
theorem missing_part_silent_witness :
    ((⟨some "7", none, some "seven", some ⟨none, none⟩⟩ : PhotoEntry).part = none ∨
      ∃ pt : PartEntry,
        (⟨some "7", none, some "seven", some ⟨none, none⟩⟩ : PhotoEntry).part = some pt ∧
          (pt.key = none ∨ pt.key = some "")) ∧
    processPhoto (fun _ => false) "hb" "tok" "Photos" "plex/Photos"
        ⟨some "7", none, some "seven", some ⟨none, none⟩⟩ = some ([], []) :=
  ⟨Or.inr ⟨⟨none, none⟩, rfl, Or.inl rfl⟩,
    missing_part_silent (fun _ => false) "hb" "tok" "Photos" "plex/Photos"
      ⟨some "7", none, some "seven", some ⟨none, none⟩⟩
      (Or.inr ⟨⟨none, none⟩, rfl, Or.inl rfl⟩)⟩

/-- Counterexample for C9 as stated: an album directory element with an
absent title gets the constant `"untitled"` as its title — its local
directory is `d/untitled` — and its `key` identifier is ignored entirely:
replacing the key `"key1"` by `"key2"` leaves the walk's result unchanged,
so no identifier is substituted for the missing album title. -/
theorem album_title_fallback_cex :
    gatherSubAlbums (fun _ => false) "hb" "tok" "d"
        (.cons (.mk none (some "key1") (.ok [] .nil)) .nil) =
      some ([Act.mkdir "d/untitled"], []) ∧
    gatherSubAlbums (fun _ => false) "hb" "tok" "d"
        (.cons (.mk none (some "key1") (.ok [] .nil)) .nil) =
      gatherSubAlbums (fun _ => false) "hb" "tok" "d"
        (.cons (.mk none (some "key2") (.ok [] .nil)) .nil) ∧
    "untitled" ≠ "key1" := by
  exact ⟨by decide, by decide, by decide⟩

/-- Claim C9, amended: A Photo node whose `title` is absent (or empty) falls
back to its identifier — the rendered `ratingKey`-or-`id` — as the title
source before sanitization; album and sub-album directory nodes with an
absent title instead fall back to the constant string `"untitled"` (not to
their identifier): the walk treats them exactly as if they were titled
`"untitled"`. -/
theorem title_fallback_amended :
    (∀ photo : PhotoEntry, photo.title = none ∨ photo.title = some "" →
      pyOr photo.title (pyOr photo.ratingKey photo.id) =
        pyOr photo.ratingKey photo.id) ∧
    (∀ (fs : String → Bool) (base_url token album_dir : String)
        (key : Option String) (content : AlbumContent) (rest : AlbumList),
      gatherSubAlbums fs base_url token album_dir (.cons (.mk none key content) rest) =
        gatherSubAlbums fs base_url token album_dir
          (.cons (.mk (some "untitled") key content) rest)) ∧
    (∀ (include_albums : List String) (fs : String → Bool)
        (base_url token section_dir : String) (key : Option String)
        (content : AlbumContent) (rest : AlbumList),
      gatherTopAlbums include_albums fs base_url token section_dir
          (.cons (.mk none key content) rest) =
        gatherTopAlbums include_albums fs base_url token section_dir
          (.cons (.mk (some "untitled") key content) rest)) := by
  refine ⟨?_, fun fs b tok d key c rest => rfl, fun inc fs b tok sd key c rest => rfl⟩
  intro photo h
  rcases h with h | h <;> rw [h] <;> rfl

/-- Witness for the amended C9: a photo with an absent title and ratingKey
`"55"`. -/
theorem title_fallback_amended_witness :
    ((⟨some "55", none, none, some ⟨some "/p55", none⟩⟩ : PhotoEntry).title = none ∨
      (⟨some "55", none, none, some ⟨some "/p55", none⟩⟩ : PhotoEntry).title = some "") ∧
    pyOr (⟨some "55", none, none, some ⟨some "/p55", none⟩⟩ : PhotoEntry).title
        (pyOr (⟨some "55", none, none, some ⟨some "/p55", none⟩⟩ : PhotoEntry).ratingKey
          (⟨some "55", none, none, some ⟨some "/p55", none⟩⟩ : PhotoEntry).id) =
      pyOr (⟨some "55", none, none, some ⟨some "/p55", none⟩⟩ : PhotoEntry).ratingKey
        (⟨some "55", none, none, some ⟨some "/p55", none⟩⟩ : PhotoEntry).id :=
  ⟨Or.inl rfl,
    title_fallback_amended.1 ⟨some "55", none, none, some ⟨some "/p55", none⟩⟩
      (Or.inl rfl)⟩

theorem processPhoto_noWrite (fs : String → Bool)
    (base_url token album_title album_dir : String) (photo : PhotoEntry)
    (r : List Act × List DownloadTask)
    (hq : processPhoto fs base_url token album_title album_dir photo = some r) :
    ∀ a ∈ r.1, a.isFileWrite = false := by
  obtain ⟨rk, pid, ttl, prt⟩ := photo
  unfold processPhoto at hq
  dsimp only at hq
  rcases prt with _ | ⟨pk, pc⟩
  · obtain rfl := Option.some.inj hq
    simp
  · dsimp only at hq
    rcases pk with _ | k
    · obtain rfl := Option.some.inj hq
      simp
    · dsimp only at hq
      by_cases he : k = ""
      · rw [if_pos he] at hq
        obtain rfl := Option.some.inj hq
        simp
      · rw [if_neg he] at hq
        rcases hqt : pyOr ttl (pyOr rk pid) with _ | t0
        · rw [hqt] at hq
          exact absurd hq (by simp)
        · rw [hqt] at hq
          dsimp only at hq
          by_cases hfs : fs (osPathJoin album_dir (pyStr (pyOr rk pid) ++ "_" ++
              sanitize_filename t0 ++ "." ++ pc.getD "jpg")) = true
          · rw [if_pos hfs] at hq
            obtain rfl := Option.some.inj hq
            simp [Act.isFileWrite]
          · rw [if_neg hfs] at hq
            obtain rfl := Option.some.inj hq
            simp [Act.isFileWrite]

theorem processPhotos_noWrite (fs : String → Bool)
    (base_url token album_title album_dir : String) (photos : List PhotoEntry)
    (r : List Act × List DownloadTask)
    (hq : processPhotos fs base_url token album_title album_dir photos = some r) :
    ∀ a ∈ r.1, a.isFileWrite = false := by
  induction photos generalizing r with
  | nil =>
    obtain rfl := Option.some.inj hq
    simp
  | cons p rest ih =>
    rw [processPhotos] at hq
    match h1 : processPhoto fs base_url token album_title album_dir p with
    | none => rw [h1] at hq; exact absurd hq (by simp)
    | some (ev₁, ts₁) =>
      rw [h1] at hq
      match h2 : processPhotos fs base_url token album_title album_dir rest with
      | none => rw [h2] at hq; exact absurd hq (by simp)
      | some (ev₂, ts₂) =>
        rw [h2] at hq
        obtain rfl := Option.some.inj hq
        intro a ha
        rcases List.mem_append.1 ha with ha | ha
        · exact processPhoto_noWrite fs base_url token album_title album_dir p _ h1 a ha
        · exact ih _ h2 a ha

mutual
theorem gather_album_noWrite (fs : String → Bool) (base_url token album_title : String)
    (content : AlbumContent) (album_dir : String) (r : List Act × List DownloadTask)
    (hq : gather_album_photos fs base_url token album_title content album_dir = some r) :
    ∀ a ∈ r.1, a.isFileWrite = false := by
  match content with
  | .fetchError =>
    obtain rfl := Option.some.inj hq
    simp [Act.isFileWrite]
  | .parseError =>
    obtain rfl := Option.some.inj hq
    simp [Act.isFileWrite]
  | .ok photos subs =>
    rw [gather_album_photos] at hq
    match h1 : processPhotos fs base_url token album_title album_dir photos with
    | none => rw [h1] at hq; exact absurd hq (by simp)
    | some (ev₁, ts₁) =>
      rw [h1] at hq
      match h2 : gatherSubAlbums fs base_url token album_dir subs with
      | none => rw [h2] at hq; exact absurd hq (by simp)
      | some (ev₂, ts₂) =>
        rw [h2] at hq
        obtain rfl := Option.some.inj hq
        intro a ha
        rcases List.mem_append.1 ha with ha | ha
        · exact processPhotos_noWrite fs base_url token album_title album_dir photos
            _ h1 a ha
        · exact gatherSubAlbums_noWrite fs base_url token album_dir subs _ h2 a ha

theorem gatherSubAlbums_noWrite (fs : String → Bool) (base_url token album_dir : String)
    (subs : AlbumList) (r : List Act × List DownloadTask)
    (hq : gatherSubAlbums fs base_url token album_dir subs = some r) :
    ∀ a ∈ r.1, a.isFileWrite = false := by
  match subs with
  | .nil =>
    obtain rfl := Option.some.inj hq
    simp
  | .cons (.mk title _key content) rest =>
    rw [gatherSubAlbums] at hq
    try dsimp only at hq
    match h1 : gather_album_photos fs base_url token (title.getD "untitled") content
        (osPathJoin album_dir (sanitize_filename (title.getD "untitled"))) with
    | none => rw [h1] at hq; exact absurd hq (by simp)
    | some (ev₁, ts₁) =>
      rw [h1] at hq
      match h2 : gatherSubAlbums fs base_url token album_dir rest with
      | none => rw [h2] at hq; exact absurd hq (by simp)
      | some (ev₂, ts₂) =>
        rw [h2] at hq
        obtain rfl := Option.some.inj hq
        intro a ha
        rcases List.mem_cons.1 ha with rfl | ha
        · rfl
        · rcases List.mem_append.1 ha with ha | ha
          · exact gather_album_noWrite fs base_url token (title.getD "untitled") content
              (osPathJoin album_dir (sanitize_filename (title.getD "untitled"))) _ h1 a ha
          · exact gatherSubAlbums_noWrite fs base_url token album_dir rest _ h2 a ha
end

theorem gatherTopAlbums_noWrite (include_albums : List String) (fs : String → Bool)
    (base_url token section_dir : String) (albums : AlbumList)
    (r : List Act × List DownloadTask)
    (hq : gatherTopAlbums include_albums fs base_url token section_dir albums = some r) :
    ∀ a ∈ r.1, a.isFileWrite = false := by
  match albums with
  | .nil =>
    obtain rfl := Option.some.inj hq
    simp
  | .cons (.mk title _key content) rest =>
    rw [gatherTopAlbums] at hq
    dsimp only at hq
    by_cases hskip : include_albums ≠ [] ∧ title.getD "untitled" ∉ include_albums
    · rw [if_pos hskip] at hq
      match h2 : gatherTopAlbums include_albums fs base_url token section_dir rest with
      | none => rw [h2] at hq; exact absurd hq (by simp)
      | some (ev₂, ts₂) =>
        rw [h2] at hq
        obtain rfl := Option.some.inj hq
        intro a ha
        rcases List.mem_cons.1 ha with rfl | ha
        · rfl
        · exact gatherTopAlbums_noWrite include_albums fs base_url token section_dir
            rest _ h2 a ha
    · rw [if_neg hskip] at hq
      match h1 : gather_album_photos fs base_url token (title.getD "untitled") content
          (osPathJoin section_dir (sanitize_filename (title.getD "untitled"))) with
      | none => rw [h1] at hq; exact absurd hq (by simp)
      | some (ev₁, ts₁) =>
        rw [h1] at hq
        match h2 : gatherTopAlbums include_albums fs base_url token section_dir rest with
        | none => rw [h2] at hq; exact absurd hq (by simp)
        | some (ev₂, ts₂) =>
          rw [h2] at hq
          obtain rfl := Option.some.inj hq
          intro a ha
          rcases List.mem_cons.1 ha with rfl | ha
          · rfl
          · rcases List.mem_append.1 ha with ha | ha
            · exact gather_album_noWrite fs base_url token (title.getD "untitled")
                content (osPathJoin section_dir
                  (sanitize_filename (title.getD "untitled"))) _ h1 a ha
            · exact gatherTopAlbums_noWrite include_albums fs base_url token
                section_dir rest _ h2 a ha

theorem gather_section_noWrite (include_albums : List String) (fs : String → Bool)
    (base_url token section_title : String) (listing : SectionListing)
    (section_dir : String) (r : List Act × List DownloadTask)
    (hq : gather_section_photos include_albums fs base_url token section_title listing
      section_dir = some r) :
    ∀ a ∈ r.1, a.isFileWrite = false := by
  rw [gather_section_photos] at hq
  match h1 : processPhotos fs base_url token section_title section_dir listing.photos with
  | none => rw [h1] at hq; exact absurd hq (by simp)
  | some (ev₁, ts₁) =>
    rw [h1] at hq
    match h2 : gatherTopAlbums include_albums fs base_url token section_dir
        listing.albums with
    | none => rw [h2] at hq; exact absurd hq (by simp)
    | some (ev₂, ts₂) =>
      rw [h2] at hq
      obtain rfl := Option.some.inj hq
      intro a ha
      rcases List.mem_append.1 ha with ha | ha
      · exact processPhotos_noWrite fs base_url token section_title section_dir
          listing.photos _ h1 a ha
      · exact gatherTopAlbums_noWrite include_albums fs base_url token section_dir
          listing.albums _ h2 a ha

theorem planSections_noWrite (include_albums : List String) (fs : String → Bool)
    (base_url token download_dir : String) (sections : List SectionEntry)
    (r : List Act × List DownloadTask)
    (hq : planSections include_albums fs base_url token download_dir sections = some r) :
    ∀ a ∈ r.1, a.isFileWrite = false := by
  induction sections generalizing r with
  | nil =>
    obtain rfl := Option.some.inj hq
    simp
  | cons s rest ih =>
    rw [planSections] at hq
    try dsimp only at hq
    match hit : s.items with
    | .fetchError =>
      rw [hit] at hq
      dsimp only at hq
      match h2 : planSections include_albums fs base_url token download_dir rest with
      | none => rw [h2] at hq; exact absurd hq (by simp)
      | some (ev₂, ts₂) =>
        rw [h2] at hq
        obtain rfl := Option.some.inj hq
        intro a ha
        rcases List.mem_cons.1 ha with rfl | ha
        · rfl
        · rcases List.mem_cons.1 ha with rfl | ha
          · rfl
          · exact ih _ h2 a ha
    | .parseError =>
      rw [hit] at hq
      dsimp only at hq
      match h2 : planSections include_albums fs base_url token download_dir rest with
      | none => rw [h2] at hq; exact absurd hq (by simp)
      | some (ev₂, ts₂) =>
        rw [h2] at hq
        obtain rfl := Option.some.inj hq
        intro a ha
        rcases List.mem_cons.1 ha with rfl | ha
        · rfl
        · rcases List.mem_cons.1 ha with rfl | ha
          · rfl
          · exact ih _ h2 a ha
    | .ok listing =>
      rw [hit] at hq
      dsimp only at hq
      match h1 : gather_section_photos include_albums fs base_url token
          (s.title.getD "untitled") listing
          (osPathJoin download_dir (sanitize_filename (s.title.getD "untitled"))) with
      | none => rw [h1] at hq; exact absurd hq (by simp)
      | some (ev₁, ts₁) =>
        rw [h1] at hq
        match h2 : planSections include_albums fs base_url token download_dir rest with
        | none => rw [h2] at hq; exact absurd hq (by simp)
        | some (ev₂, ts₂) =>
          rw [h2] at hq
          obtain rfl := Option.some.inj hq
          intro a ha
          rcases List.mem_cons.1 ha with rfl | ha
          · rfl
          · rcases List.mem_append.1 ha with ha | ha
            · exact gather_section_noWrite include_albums fs base_url token
                (s.title.getD "untitled") listing
                (osPathJoin download_dir (sanitize_filename (s.title.getD "untitled")))
                _ h1 a ha
            · exact ih _ h2 a ha

/-- Claim C10: The walk creates an album's local directory before its child
metadata is consumed: for every accepted top-level album whose metadata
fetch or parse fails, the trace is the directory creation followed by the
error log (so the directory is created even though the subtree contributes
zero tasks), siblings being unaffected; for every sub-album reached with a
walkable subtree, the directory creation precedes the whole subtree trace;
and planning never mutates any other filesystem state — no action of a
planning trace is a file write. -/
theorem album_dir_created_before_fetch :
    (∀ (include_albums : List String) (fs : String → Bool)
        (base_url token section_dir : String) (title key : Option String)
        (rest : AlbumList),
      acceptedAlbum include_albums (title.getD "untitled") →
      (gatherTopAlbums include_albums fs base_url token section_dir
          (.cons (.mk title key .fetchError) rest) =
        (gatherTopAlbums include_albums fs base_url token section_dir rest).map
          (fun r =>
            (Act.mkdir (osPathJoin section_dir
                (sanitize_filename (title.getD "untitled"))) ::
              Act.logErrorAlbum (title.getD "untitled") :: r.1, r.2)) ∧
       gatherTopAlbums include_albums fs base_url token section_dir
          (.cons (.mk title key .parseError) rest) =
        (gatherTopAlbums include_albums fs base_url token section_dir rest).map
          (fun r =>
            (Act.mkdir (osPathJoin section_dir
                (sanitize_filename (title.getD "untitled"))) ::
              Act.logErrorParse (title.getD "untitled") :: r.1, r.2)))) ∧
    (∀ (fs : String → Bool) (base_url token album_dir : String)
        (title key : Option String) (content : AlbumContent) (rest : AlbumList),
      contentNoCrash content = true → subsNoCrash rest = true →
      gatherSubAlbums fs base_url token album_dir (.cons (.mk title key content) rest) =
        some (Act.mkdir (osPathJoin album_dir
              (sanitize_filename (title.getD "untitled"))) ::
            (albumPlan fs base_url token (title.getD "untitled") content
              (osPathJoin album_dir (sanitize_filename (title.getD "untitled")))).1 ++
            (subsPlan fs base_url token album_dir rest).1,
          (albumPlan fs base_url token (title.getD "untitled") content
              (osPathJoin album_dir (sanitize_filename (title.getD "untitled")))).2 ++
            (subsPlan fs base_url token album_dir rest).2)) ∧
    (∀ (include_albums : List String) (fs : String → Bool)
        (base_url token download_dir : String)
        (sections : FetchRes (List SectionEntry)) (ev : List Act)
        (ts : List DownloadTask),
      planRun include_albums fs base_url token download_dir sections = some (ev, ts) →
      ∀ a ∈ ev, a.isFileWrite = false) := by
  refine ⟨?_, ?_, ?_⟩
  · intro inc fs b tok sd title key rest hacc
    have hskip : ¬(inc ≠ [] ∧ title.getD "untitled" ∉ inc) := by
      rcases hacc with h1 | h2
      · simp [h1]
      · simp [h2]
    constructor
    · cases hr : gatherTopAlbums inc fs b tok sd rest with
      | none => simp [gatherTopAlbums, hskip, hr, gather_album_photos]
      | some r => simp [gatherTopAlbums, hskip, hr, gather_album_photos]
    · cases hr : gatherTopAlbums inc fs b tok sd rest with
      | none => simp [gatherTopAlbums, hskip, hr, gather_album_photos]
      | some r => simp [gatherTopAlbums, hskip, hr, gather_album_photos]
  · intro fs b tok d title key content rest hc hrest
    have := gatherSubAlbums_eq fs b tok d (.cons (.mk title key content) rest)
      (by rw [subsNoCrash, hc, hrest]; rfl)
    rw [this]
    rfl
  · intro inc fs b tok dd sections ev ts hq a ha
    match sections with
    | .fetchError =>
      obtain ⟨rfl, rfl⟩ := Prod.mk.injEq .. ▸ Option.some.inj hq
      rcases List.mem_cons.1 ha with rfl | ha
      · rfl
      · rcases List.mem_cons.1 ha with rfl | ha
        · rfl
        · simp at ha
    | .parseError =>
      obtain ⟨rfl, rfl⟩ := Prod.mk.injEq .. ▸ Option.some.inj hq
      rcases List.mem_cons.1 ha with rfl | ha
      · rfl
      · rcases List.mem_cons.1 ha with rfl | ha
        · rfl
        · simp at ha
    | .ok secs =>
      rw [planRun] at hq
      try dsimp only at hq
      by_cases hemp : (secs.filter (fun s => s.type == some "photo")).isEmpty
      · rw [if_pos hemp] at hq
        obtain ⟨rfl, rfl⟩ := Prod.mk.injEq .. ▸ Option.some.inj hq
        rcases List.mem_cons.1 ha with rfl | ha
        · rfl
        · rcases List.mem_cons.1 ha with rfl | ha
          · rfl
          · simp at ha
      · rw [if_neg hemp] at hq
        match h2 : planSections inc fs b tok dd
            (secs.filter (fun s => s.type == some "photo")) with
        | none => rw [h2] at hq; exact absurd hq (by simp)
        | some (ev₂, ts₂) =>
          rw [h2] at hq
          obtain ⟨rfl, rfl⟩ := Prod.mk.injEq .. ▸ Option.some.inj hq
          rcases List.mem_cons.1 ha with rfl | ha
          · rfl
          · exact planSections_noWrite inc fs b tok dd
              (secs.filter (fun s => s.type == some "photo")) _ h2 a ha

/-- Witness for C10: a concrete accepted album with a failing fetch, and a
concrete one-section run whose trace holds only directory creations. -/
theorem album_dir_created_before_fetch_witness :
    acceptedAlbum [] ((some "X" : Option String).getD "untitled") ∧
    gatherTopAlbums [] (fun _ => false) "hb" "tok" "sd"
        (.cons (.mk (some "X") none .fetchError) .nil) =
      (gatherTopAlbums [] (fun _ => false) "hb" "tok" "sd" .nil).map (fun r =>
        (Act.mkdir (osPathJoin "sd"
            (sanitize_filename ((some "X" : Option String).getD "untitled"))) ::
          Act.logErrorAlbum ((some "X" : Option String).getD "untitled") :: r.1, r.2)) ∧
    (Act.mkdir "dl").isFileWrite = false :=
  ⟨Or.inl rfl,
    (album_dir_created_before_fetch.1 [] (fun _ => false) "hb" "tok" "sd" (some "X")
      none .nil (Or.inl rfl)).1,
    album_dir_created_before_fetch.2.2 [] (fun _ => false) "hb" "tok" "dl"
      (.ok [⟨some "/1", some "S", some "photo", .ok ⟨[], .nil⟩⟩])
      [Act.mkdir "dl", Act.mkdir "dl/S"] [] (by decide) (Act.mkdir "dl") (by decide)⟩

